import Mathlib

/-!
Shallow embedding of the result-aggregation and ranking-display logic of the
Resume-Ranking-System frontend, together with proofs about it.

Embedded source locations:
* src/frontend/components/ResultDisplay.jsx — live-results view: algorithm
  universe (getAlgorithms), CSV export (exportToCSV), summary average, cell
  rendering, and the top-level null guard.
* src/unnamed/part_004 (RankingDetailsClient) and
  src/frontend/app/dashboard/[rankingId]/page.jsx — historical details view:
  the rank sort ((a.rank || 0) - (b.rank || 0)), first-candidate algorithm
  list, details CSV export, summary average.
* src/unnamed/part_000 — the API client: axios response interceptor and the
  processResumes catch block that map transport errors to user messages.

Modelling conventions: JS numbers carrying scores are rationals (the spec
restricts them to [0,1]; NaN/Infinity are out of the data model); JS objects
used as string-keyed score maps are association lists in insertion order
with distinct keys; JS `Array.prototype.sort` with a consistent comparator
is a stable sort, and a stable sort by a total preorder has a unique result,
so it is modelled by `List.insertionSort`, which evaluates structurally;
JS default string comparison is lexicographic on code units, modelled by
`lexLe` on `Char` code points (identical on the ASCII identifiers involved).
-/

/-! ### JS string ordering (lexicographic on code units) -/

/-- Lexicographic comparison of char lists by code point, the order JS
`Array.prototype.sort()` uses on strings (for ASCII, code unit = code point). -/
def lexLe : List Char → List Char → Bool
  | [], _ => true
  | _ :: _, [] => false
  | a :: as, b :: bs =>
    if a.toNat < b.toNat then true
    else if b.toNat < a.toNat then false
    else lexLe as bs

/-- The JS string order as a relation on `String`. -/
def strLe (a b : String) : Prop := lexLe a.data b.data = true

instance : DecidableRel strLe := fun a b =>
  inferInstanceAs (Decidable (lexLe a.data b.data = true))

/-! ### JS number-to-string rendering -/

/-- One decimal digit as a character. -/
def digitChar (n : Nat) : Char :=
  if n = 0 then '0' else if n = 1 then '1' else if n = 2 then '2'
  else if n = 3 then '3' else if n = 4 then '4' else if n = 5 then '5'
  else if n = 6 then '6' else if n = 7 then '7' else if n = 8 then '8'
  else if n = 9 then '9' else '*'

/-- Decimal digits of a natural number, most significant first; `fuel`
bounds the recursion so the definition is structural. -/
def natDigitsAux : Nat → Nat → List Char
  | 0, _ => []
  | fuel + 1, n =>
    if n < 10 then [digitChar n]
    else natDigitsAux fuel (n / 10) ++ [digitChar (n % 10)]

/-- Decimal rendering of a natural number, as JS renders an integral number
in a template literal. -/
def natToStr (n : Nat) : String := ⟨natDigitsAux (n + 1) n⟩

/-- JS `v.toFixed(1)` for a non-negative rational `v` (scores are in [0,1]
per the data model, so the values rendered are non-negative): round to the
nearest tenth (half up) and print with exactly one decimal digit. -/
def jsToFixed1 (v : ℚ) : String :=
  let n : Nat := (Int.floor (v * 10 + 1 / 2)).toNat
  natToStr (n / 10) ++ "." ++ natToStr (n % 10)

/-- JS `String.prototype.toUpperCase` on the ASCII identifiers involved. -/
def jsToUpper (s : String) : String := ⟨s.data.map Char.toUpper⟩

/-! ### JS `Set` insertion and key collection -/

/-- Adding an element to a JS `Set` keeps insertion order and ignores
duplicates. -/
def setInsert (s : List String) (x : String) : List String :=
  if x ∈ s then s else s ++ [x]

/-- Add every key of one `scores` object to the accumulating set
(`Object.keys(result.scores).forEach(alg => algorithms.add(alg))`). -/
def addKeys (s : List String) (sc : List (String × ℚ)) : List String :=
  sc.foldl (fun s' kv => setInsert s' kv.1) s

/-- Collect the keys of every present `scores` object, in first-occurrence
order (`results.forEach(result => if (result.scores) ...)`). -/
def unionKeys (scss : List (Option (List (String × ℚ)))) : List String :=
  scss.foldl
    (fun s osc =>
      match osc with
      | some sc => addKeys s sc
      | none => s)
    []

/-! ### CSV serialization (from the source) and a standard CSV reader -/

/-- The code's quoting of one cell: `` `"${cell}"` `` — wrap in double
quotes, with no escaping of the cell's own characters. -/
def quoteField (f : List Char) : List Char := '"' :: f ++ ['"']

/-- JS `Array.prototype.join(sep)` on char lists. -/
def joinSep (sep : Char) : List (List Char) → List Char
  | [] => []
  | [x] => x
  | x :: y :: xs => x ++ sep :: joinSep sep (y :: xs)

/-- One CSV record: quoted cells joined by commas
(`row.map(cell => ...).join(',')`). -/
def serializeRecord (fs : List (List Char)) : List Char :=
  joinSep ',' (fs.map quoteField)

/-- The whole CSV text: records joined by newlines (`.join('\n')`). -/
def serializeTable (rs : List (List (List Char))) : List Char :=
  joinSep '\n' (rs.map serializeRecord)

/-- CSV text of a table whose cells are strings. -/
def csvOfRows (rows : List (List String)) : String :=
  ⟨serializeTable (rows.map (fun row => row.map String.data))⟩

/-- Modelled from the spec: the state of a standard (RFC 4180 style) CSV
reader on fully quoted input; the repository itself contains no CSV parser,
the spec appeals to "a standard CSV reader" for the round-trip property. -/
inductive CsvState where
  | startField
  | inQuotes
  | afterQuote
deriving DecidableEq

/-- Modelled from the spec: a standard CSV reader on fully quoted input.
`cur` is the current field, `rec` the fields of the current record, `rows`
the completed records. Every field must be quoted; `""` inside a field is
the standard escape for one double quote; records are separated by a
newline; anything else after a closing quote is malformed. -/
def csvRun : List Char → List Char → List (List Char) → List (List (List Char)) →
    CsvState → Option (List (List (List Char)))
  | [], _, rec, rows, .startField =>
    if rec = [] ∧ rows = [] then some [] else none
  | [], _, _, _, .inQuotes => none
  | [], cur, rec, rows, .afterQuote => some (rows ++ [rec ++ [cur]])
  | c :: cs, _, rec, rows, .startField =>
    if c = '"' then csvRun cs [] rec rows .inQuotes else none
  | c :: cs, cur, rec, rows, .inQuotes =>
    if c = '"' then csvRun cs cur rec rows .afterQuote
    else csvRun cs (cur ++ [c]) rec rows .inQuotes
  | c :: cs, cur, rec, rows, .afterQuote =>
    if c = '"' then csvRun cs (cur ++ ['"']) rec rows .inQuotes
    else if c = ',' then csvRun cs [] (rec ++ [cur]) rows .startField
    else if c = '\n' then csvRun cs [] [] (rows ++ [rec ++ [cur]]) .startField
    else none

/-- Modelled from the spec: parse a CSV text with the standard reader,
returning the table of cells, or `none` when the text is malformed. -/
def parseCSV (s : String) : Option (List (List String)) :=
  (csvRun s.data [] [] [] .startField).map
    (fun rows => rows.map (fun r => r.map (fun f => (⟨f⟩ : String))))

/-! ### ResultDisplay.jsx — the live-results view -/

namespace ResultDisplay

/-- One entry of `results.results` as ResultDisplay.jsx consumes it
(data model §3); absent optional JS fields are `none`. -/
structure CandidateResult where
  rank : Option Nat
  filename : String
  scores : Option (List (String × ℚ))
  final_score : Option ℚ
  extracted_skills : Option (List String)
deriving DecidableEq

/-- The `scores` object's entries, empty when the field is absent. -/
def scoresOf (r : CandidateResult) : List (String × ℚ) := r.scores.getD []

/-- `result.scores?.[alg]`. -/
def lookupScore (r : CandidateResult) (alg : String) : Option ℚ :=
  (scoresOf r).lookup alg

/-- `getAlgorithms` of ResultDisplay.jsx: every key appearing in any
candidate's `scores`, collected into a `Set`, then `Array.from(...).sort()`. -/
def getAlgorithms (results : List CandidateResult) : List String :=
  List.insertionSort strLe (unionKeys (results.map CandidateResult.scores))

/-- One algorithm cell of the CSV export and of the table view:
`result.scores?.[alg] ? (result.scores[alg] * 100).toFixed(1) : 'N/A'`.
The test is JS truthiness, so a present score of 0 takes the `'N/A'` branch. -/
def scoreCell (r : CandidateResult) (alg : String) : String :=
  match lookupScore r alg with
  | some q => if q = 0 then "N/A" else jsToFixed1 (q * 100)
  | none => "N/A"

/-- The final-score cell:
`result.final_score ? (result.final_score * 100).toFixed(1) : 'N/A'`. -/
def finalCell (r : CandidateResult) : String :=
  match r.final_score with
  | some q => if q = 0 then "N/A" else jsToFixed1 (q * 100)
  | none => "N/A"

/-- The skills-count cell: `result.extracted_skills?.length || 0`. -/
def skillsCell (r : CandidateResult) : String :=
  natToStr (r.extracted_skills.getD []).length

/-- The rank cell: `result.rank` interpolated into the row; an absent JS
field renders as the string "undefined". -/
def rankCell (r : CandidateResult) : String :=
  match r.rank with
  | some n => natToStr n
  | none => "undefined"

/-- The CSV header row of `exportToCSV`:
`['Rank', 'Filename', ...algorithms.map(alg => alg.toUpperCase() + ' (%)'), 'Final Score (%)', 'Skills Count']`. -/
def headerRow (algs : List String) : List String :=
  "Rank" :: "Filename" :: (algs.map (fun a => jsToUpper a ++ " (%)")
    ++ ["Final Score (%)", "Skills Count"])

/-- One data row of `exportToCSV`. -/
def dataRow (algs : List String) (r : CandidateResult) : List String :=
  rankCell r :: r.filename :: (algs.map (scoreCell r) ++ [finalCell r, skillsCell r])

/-- The cell table `[headers, ...csvData]` built by `exportToCSV`. -/
def csvRows (results : List CandidateResult) : List (List String) :=
  headerRow (getAlgorithms results) ::
    results.map (dataRow (getAlgorithms results))

/-- The CSV text `exportToCSV` produces (the content of the downloaded
blob). -/
def csvContent (results : List CandidateResult) : String :=
  csvOfRows (csvRows results)

/-- The summary average value: `results.results.reduce((acc, r) =>
acc + (r.final_score || 0), 0) / results.results.length`. Every candidate is
counted in the denominator; a missing `final_score` contributes 0. -/
def avgValue (results : List CandidateResult) : ℚ :=
  (results.foldl (fun acc r => acc + r.final_score.getD 0) 0) / results.length

/-- The displayed average: `results.results?.length > 0 ? ((... / length)
* 100).toFixed(1) + '%' : 'N/A'`. -/
def avgDisplay (results : List CandidateResult) : String :=
  if results.length > 0 then jsToFixed1 (avgValue results * 100) ++ "%" else "N/A"

/-- Modelled from the spec: `averageScore` = arithmetic mean of
`final_score` over candidates that have one, "not available" (here `none`)
when no candidate has one. Stated for comparison with `avgValue`. -/
def specMeanFinalScore (results : List CandidateResult) : Option ℚ :=
  let xs := results.filterMap CandidateResult.final_score
  if xs.length = 0 then none else some (xs.sum / xs.length)

/-- The `results` prop as the component can receive it: absent, an object
without a usable `results` field, an object whose `results` is a truthy
non-array value, or a well-formed ResultSet. -/
inductive ResultsProp where
  | missing
  | noResults
  | nonSeq
  | wellFormed (rs : List CandidateResult)

/-- What rendering the component produces: the `return null` of the guard
`if (!results?.results) return null`, a thrown JS `TypeError` (iterating a
truthy non-array), or the rendered table. -/
inductive RenderOutcome where
  | nullRender
  | typeError
  | view (rows : List (List String))

/-- The table rows the component renders for a well-formed ResultSet, one
per candidate. -/
def tableRows (rs : List CandidateResult) : List (List String) :=
  rs.map (dataRow (getAlgorithms rs))

/-- The component's behaviour on each shape of input: falsy
`results?.results` returns null; a truthy non-array raises when iterated;
a well-formed ResultSet renders fully. -/
def runDisplay : ResultsProp → RenderOutcome
  | .missing => .nullRender
  | .noResults => .nullRender
  | .nonSeq => .typeError
  | .wellFormed rs => .view (tableRows rs)

/-- Whether an outcome surfaces an error to the caller. -/
def reportsError : RenderOutcome → Prop
  | .typeError => True
  | _ => False

/-- Whether the input is a well-formed ResultSet. -/
def wellFormedInput : ResultsProp → Prop
  | .wellFormed _ => True
  | _ => False

end ResultDisplay

/-! ### RankingDetailsClient / dashboard page — the historical details view -/

namespace RankingDetails

/-- One `details` record as the historical view consumes it (note the
camelCase `finalScore` / `extractedSkills` of the persisted shape). -/
structure Detail where
  rank : Option Nat
  filename : String
  scores : Option (List (String × ℚ))
  finalScore : Option ℚ
  extractedSkills : Option (List String)
deriving DecidableEq

/-- The sort key `(a.rank || 0)`: an absent rank — and a rank of 0 — is 0. -/
def jsRank (d : Detail) : Nat := d.rank.getD 0

/-- The comparator order of `.sort((a, b) => (a.rank || 0) - (b.rank || 0))`. -/
def detailLe (a b : Detail) : Prop := jsRank a ≤ jsRank b

instance : DecidableRel detailLe := fun a b =>
  inferInstanceAs (Decidable (jsRank a ≤ jsRank b))

/-- The details sort of `fetchDetails` / `getRankingDetails`: JS
`Array.prototype.sort` is stable, and a stable sort by a total preorder is
unique, so `List.insertionSort` computes it. -/
def sortDetails (ds : List Detail) : List Detail :=
  List.insertionSort detailLe ds

/-- The `scores` object's entries, empty when the field is absent. -/
def scoresOfD (d : Detail) : List (String × ℚ) := d.scores.getD []

/-- `allAlgorithms` of RankingDetailsClient:
`details.length > 0 ? Object.keys(details[0].scores || {}).sort() : []` —
only the FIRST record's keys. -/
def allAlgorithms (details : List Detail) : List String :=
  match details with
  | [] => []
  | d :: _ => List.insertionSort strLe ((scoresOfD d).map Prod.fst)

/-- The algorithm columns of the details `exportToCSV`:
`Object.keys(details[0].scores || {})` — first record's keys, unsorted. -/
def exportAlgorithms (details : List Detail) : List String :=
  match details with
  | [] => []
  | d :: _ => (scoresOfD d).map Prod.fst

/-- `detail.scores?.[alg]`. -/
def lookupScoreD (d : Detail) (alg : String) : Option ℚ :=
  (scoresOfD d).lookup alg

/-- An algorithm cell of the details export, same truthiness test as the
live view. -/
def scoreCellD (d : Detail) (alg : String) : String :=
  match lookupScoreD d alg with
  | some q => if q = 0 then "N/A" else jsToFixed1 (q * 100)
  | none => "N/A"

/-- The final-score cell of the details export:
`detail.finalScore ? (detail.finalScore * 100).toFixed(1) : 'N/A'`. -/
def finalCellD (d : Detail) : String :=
  match d.finalScore with
  | some q => if q = 0 then "N/A" else jsToFixed1 (q * 100)
  | none => "N/A"

/-- The rank cell of the details export. -/
def rankCellD (d : Detail) : String :=
  match d.rank with
  | some n => natToStr n
  | none => "undefined"

/-- The cell table of the details `exportToCSV`: header
`['Rank', 'Filename', ...algorithms.map(a => a.toUpperCase() + ' (%)'), 'Final Score (%)']`
(no skills column) and one row per record. -/
def detailsCsvRows (details : List Detail) : List (List String) :=
  ("Rank" :: "Filename" ::
      ((exportAlgorithms details).map (fun a => jsToUpper a ++ " (%)")
        ++ ["Final Score (%)"])) ::
    details.map (fun d =>
      rankCellD d :: d.filename ::
        ((exportAlgorithms details).map (scoreCellD d) ++ [finalCellD d]))

/-- The CSV text of the details export; the handler returns without
producing anything when `details.length === 0`. -/
def detailsCsvContent (details : List Detail) : Option String :=
  if details = [] then none else some (csvOfRows (detailsCsvRows details))

/-- The first-occurrence union of score keys over ALL detail records —
the algorithm universe the spec requires; stated for comparison with
`allAlgorithms`/`exportAlgorithms`. -/
def detailsUnionKeys (details : List Detail) : List String :=
  unionKeys (details.map Detail.scores)

end RankingDetails

/-! ### The API client (src/unnamed/part_000) -/

namespace ApiClient

/-- The part of an axios error response the handlers inspect:
`error.response.status` and `error.response.data.error`. -/
structure AxiosResponse where
  status : Nat
  dataError : Option String
deriving DecidableEq

/-- An axios error as the handlers see it: `error.response` is absent on
network failures and timeouts; `error.code` is `'ECONNABORTED'` on a
request timeout; `error.message` is the error's message text. -/
structure AxiosError where
  response : Option AxiosResponse
  code : Option String
  message : String
deriving DecidableEq

/-- A fresh `new Error(msg)` thrown by the interceptor: it carries no
`response` and no `code`. -/
def plainError (msg : String) : AxiosError :=
  { response := none, code := none, message := msg }

/-- `error.response?.status` as a testable value. -/
def statusOf (e : AxiosError) : Option Nat := e.response.map AxiosResponse.status

/-- `error.response?.status >= 500`: comparison with the JS `undefined` of a
missing response is false. -/
def isServerError (e : AxiosError) : Bool :=
  match statusOf e with
  | some s => 500 ≤ s
  | none => false

/-- The response interceptor's rejection handler: statuses 413, 422 and
`>= 500` are replaced by fresh errors with fixed messages
(`undefined >= 500` is false, so a missing response falls through); any
other error is rethrown unchanged. -/
def responseInterceptor (e : AxiosError) : AxiosError :=
  if statusOf e = some 413 then
    plainError "File size too large. Please reduce file sizes or number of files."
  else if statusOf e = some 422 then
    plainError "Invalid file format. Please upload PDF or DOCX files only."
  else if isServerError e then
    plainError "Server error. Please try again later."
  else e

/-- The catch block of `processResumes`: a backend-provided
`error.response.data.error` wins; else a timeout (`error.code ===
'ECONNABORTED'`) gets the fixed timeout message; else the error's message
is surfaced with a `Processing failed: ` prefix. -/
def processResumesCatch (e : AxiosError) : String :=
  match e.response.bind AxiosResponse.dataError with
  | some msg => msg
  | none =>
    if e.code = some "ECONNABORTED" then
      "Processing timeout. Please try with fewer files or simpler algorithms."
    else "Processing failed: " ++ e.message

/-- The user-facing message for a failed job submission: the interceptor
rewrites the error, then the catch block of `processResumes` formats it.
No retry happens anywhere on this path: the message is a pure function of
the transport error. -/
def userMessage (e : AxiosError) : String :=
  processResumesCatch (responseInterceptor e)

end ApiClient

/-! ## Order facts about the JS string comparison -/

theorem charToNat_inj {a b : Char} (h : a.toNat = b.toNat) : a = b :=
  Char.ext (UInt32.ext h)

theorem lexLe_total (as : List Char) : ∀ bs, lexLe as bs = true ∨ lexLe bs as = true := by
  induction as with
  | nil => intro bs; left; simp [lexLe]
  | cons a as ih =>
    intro bs
    cases bs with
    | nil => right; simp [lexLe]
    | cons b bs =>
      rcases Nat.lt_trichotomy a.toNat b.toNat with h | h | h
      · left; simp [lexLe, h]
      · have h1 : ¬ a.toNat < b.toNat := by omega
        have h2 : ¬ b.toNat < a.toNat := by omega
        rcases ih bs with h3 | h3
        · left; simp [lexLe, h1, h2, h3]
        · right; simp [lexLe, h1, h2, h3]
      · right; simp [lexLe, h]

theorem lexLe_trans : ∀ {as bs cs : List Char},
    lexLe as bs = true → lexLe bs cs = true → lexLe as cs = true := by
  intro as
  induction as with
  | nil => intro bs cs _ _; simp [lexLe]
  | cons a as ih =>
    intro bs cs h1 h2
    cases bs with
    | nil => simp [lexLe] at h1
    | cons b bs =>
      cases cs with
      | nil => simp [lexLe] at h2
      | cons c cs =>
        simp only [lexLe] at h1 h2 ⊢
        split_ifs at h1 h2 ⊢ <;> first | rfl | omega | exact ih h1 h2

theorem lexLe_antisymm : ∀ {as bs : List Char},
    lexLe as bs = true → lexLe bs as = true → as = bs := by
  intro as
  induction as with
  | nil =>
    intro bs h1 h2
    cases bs with
    | nil => rfl
    | cons b bs => simp [lexLe] at h2
  | cons a as ih =>
    intro bs h1 h2
    cases bs with
    | nil => simp [lexLe] at h1
    | cons b bs =>
      simp only [lexLe] at h1 h2
      split_ifs at h1 h2 <;> first
        | omega
        | (have hab : a = b := charToNat_inj (by omega)
           subst hab
           rw [ih h1 h2])

instance : IsTotal String strLe := ⟨fun a b => lexLe_total a.data b.data⟩

instance : IsTrans String strLe := ⟨fun _ _ _ => lexLe_trans⟩

instance : IsAntisymm String strLe :=
  ⟨fun a b h1 h2 => by
    cases a with
    | mk da =>
      cases b with
      | mk db =>
        have : da = db := lexLe_antisymm h1 h2
        rw [this]⟩

/-! ## Key collection: membership, no duplicates, order-independence -/

theorem mem_setInsert (s : List String) (x a : String) :
    a ∈ setInsert s x ↔ a ∈ s ∨ a = x := by
  by_cases h : x ∈ s
  · simp only [setInsert, if_pos h]
    exact ⟨Or.inl, fun h1 => h1.elim id (fun e => e ▸ h)⟩
  · simp [setInsert, if_neg h]

theorem nodup_setInsert (s : List String) (x : String) (h : s.Nodup) :
    (setInsert s x).Nodup := by
  by_cases hx : x ∈ s
  · simpa [setInsert, hx] using h
  · simp [setInsert, hx, List.nodup_append, h]

theorem mem_addKeys (sc : List (String × ℚ)) :
    ∀ (s : List String) (a : String),
      a ∈ addKeys s sc ↔ a ∈ s ∨ ∃ p ∈ sc, p.1 = a := by
  induction sc with
  | nil => intro s a; simp [addKeys]
  | cons kv sc ih =>
    intro s a
    have step : addKeys s (kv :: sc) = addKeys (setInsert s kv.1) sc := rfl
    rw [step, ih, mem_setInsert]
    constructor
    · rintro ((h | h) | ⟨p, hp, rfl⟩)
      · exact Or.inl h
      · exact Or.inr ⟨kv, List.mem_cons_self kv sc, h.symm⟩
      · exact Or.inr ⟨p, List.mem_cons_of_mem kv hp, rfl⟩
    · rintro (h | ⟨p, hp, rfl⟩)
      · exact Or.inl (Or.inl h)
      · rcases List.mem_cons.mp hp with rfl | hp
        · exact Or.inl (Or.inr rfl)
        · exact Or.inr ⟨p, hp, rfl⟩

theorem nodup_addKeys (sc : List (String × ℚ)) :
    ∀ s : List String, s.Nodup → (addKeys s sc).Nodup := by
  induction sc with
  | nil => intro s h; simpa [addKeys] using h
  | cons kv sc ih =>
    intro s h
    exact ih (setInsert s kv.1) (nodup_setInsert s kv.1 h)

theorem mem_unionKeys_foldl (scss : List (Option (List (String × ℚ)))) :
    ∀ (s : List String) (a : String),
      (a ∈ scss.foldl
          (fun s osc =>
            match osc with
            | some sc => addKeys s sc
            | none => s)
          s) ↔ a ∈ s ∨ ∃ osc ∈ scss, ∃ p ∈ osc.getD [], p.1 = a := by
  induction scss with
  | nil => intro s a; simp
  | cons osc scss ih =>
    intro s a
    rw [List.foldl_cons, ih]
    cases osc with
    | none => simp
    | some sc =>
      rw [mem_addKeys]
      constructor
      · rintro ((h | ⟨p, hp, rfl⟩) | ⟨o, ho, p, hp, rfl⟩)
        · exact Or.inl h
        · exact Or.inr ⟨some sc, List.mem_cons_self _ _, p, by simpa using hp, rfl⟩
        · exact Or.inr ⟨o, List.mem_cons_of_mem _ ho, p, hp, rfl⟩
      · rintro (h | ⟨o, ho, p, hp, rfl⟩)
        · exact Or.inl (Or.inl h)
        · rcases List.mem_cons.mp ho with rfl | ho
          · exact Or.inl (Or.inr ⟨p, by simpa using hp, rfl⟩)
          · exact Or.inr ⟨o, ho, p, hp, rfl⟩

theorem mem_unionKeys (scss : List (Option (List (String × ℚ)))) (a : String) :
    a ∈ unionKeys scss ↔ ∃ osc ∈ scss, ∃ p ∈ osc.getD [], p.1 = a := by
  rw [unionKeys, mem_unionKeys_foldl]
  simp

theorem nodup_unionKeys_foldl (scss : List (Option (List (String × ℚ)))) :
    ∀ s : List String, s.Nodup →
      (scss.foldl
          (fun s osc =>
            match osc with
            | some sc => addKeys s sc
            | none => s)
          s).Nodup := by
  induction scss with
  | nil => intro s h; simpa using h
  | cons osc scss ih =>
    intro s h
    rw [List.foldl_cons]
    cases osc with
    | none => exact ih s h
    | some sc => exact ih _ (nodup_addKeys sc s h)

theorem nodup_unionKeys (scss : List (Option (List (String × ℚ)))) :
    (unionKeys scss).Nodup :=
  nodup_unionKeys_foldl scss [] List.nodup_nil

/-! ## The algorithm universe of the live view -/

open ResultDisplay RankingDetails ApiClient

theorem getAlgorithms_mem (results : List CandidateResult) (a : String) :
    a ∈ getAlgorithms results ↔ ∃ r ∈ results, ∃ p ∈ scoresOf r, p.1 = a := by
  unfold getAlgorithms
  rw [List.mem_insertionSort, mem_unionKeys]
  constructor
  · rintro ⟨osc, hosc, p, hp, rfl⟩
    rcases List.mem_map.mp hosc with ⟨r, hr, rfl⟩
    exact ⟨r, hr, p, hp, rfl⟩
  · rintro ⟨r, hr, p, hp, rfl⟩
    exact ⟨r.scores, List.mem_map_of_mem _ hr, p, hp, rfl⟩

theorem getAlgorithms_sorted (results : List CandidateResult) :
    List.Sorted strLe (getAlgorithms results) :=
  List.sorted_insertionSort strLe _

theorem getAlgorithms_nodup (results : List CandidateResult) :
    (getAlgorithms results).Nodup :=
  ((List.perm_insertionSort strLe _).nodup_iff).mpr (nodup_unionKeys _)

theorem getAlgorithms_perm {r1 r2 : List CandidateResult} (h : r1.Perm r2) :
    getAlgorithms r1 = getAlgorithms r2 := by
  apply List.eq_of_perm_of_sorted ?_ (getAlgorithms_sorted r1) (getAlgorithms_sorted r2)
  apply (List.perm_ext_iff_of_nodup (getAlgorithms_nodup r1) (getAlgorithms_nodup r2)).mpr
  intro a
  rw [getAlgorithms_mem, getAlgorithms_mem]
  constructor
  · rintro ⟨r, hr, hrest⟩
    exact ⟨r, h.mem_iff.mp hr, hrest⟩
  · rintro ⟨r, hr, hrest⟩
    exact ⟨r, h.mem_iff.mpr hr, hrest⟩

/-- C1 (amended): in the live view, `getAlgorithms` is the algorithm
universe: a lexicographically sorted sequence whose members are exactly the
keys appearing in some candidate's `scores`, the same for any permutation
of the candidates, and empty on empty input. (As stated the claim fails:
the historical details view derives its columns from the first candidate's
keys only — see the counterexample.) -/
theorem C1_algorithm_universe (results results' : List CandidateResult) :
    getAlgorithms ([] : List CandidateResult) = [] ∧
    (∀ a, a ∈ getAlgorithms results ↔ ∃ r ∈ results, ∃ p ∈ scoresOf r, p.1 = a) ∧
    List.Sorted strLe (getAlgorithms results) ∧
    (results.Perm results' → getAlgorithms results = getAlgorithms results') :=
  ⟨rfl, getAlgorithms_mem results, getAlgorithms_sorted results,
    fun h => getAlgorithms_perm h⟩

/-- Witness for C1: the permutation-invariance hypothesis discharged at a
concrete two-candidate ResultSet. -/
theorem C1_algorithm_universe_witness :
    ([({ rank := some 1, filename := "a.pdf", scores := some [("bert", 0)],
          final_score := none, extracted_skills := none } : CandidateResult),
       { rank := some 2, filename := "b.pdf", scores := some [("cosine", 0)],
          final_score := none, extracted_skills := none }].Perm
      [{ rank := some 2, filename := "b.pdf", scores := some [("cosine", 0)],
          final_score := none, extracted_skills := none },
        { rank := some 1, filename := "a.pdf", scores := some [("bert", 0)],
          final_score := none, extracted_skills := none }]) ∧
    getAlgorithms
        [{ rank := some 1, filename := "a.pdf", scores := some [("bert", 0)],
            final_score := none, extracted_skills := none },
          { rank := some 2, filename := "b.pdf", scores := some [("cosine", 0)],
            final_score := none, extracted_skills := none }] =
      getAlgorithms
        [{ rank := some 2, filename := "b.pdf", scores := some [("cosine", 0)],
            final_score := none, extracted_skills := none },
          { rank := some 1, filename := "a.pdf", scores := some [("bert", 0)],
            final_score := none, extracted_skills := none }] :=
  ⟨List.Perm.swap _ _ [],
    (C1_algorithm_universe _ _).2.2.2 (List.Perm.swap _ _ [])⟩

/-- Counterexample for C1 as stated: in the historical details view the
column order comes from `Object.keys(details[0].scores || {}).sort()`, so
with two candidates holding keys bert and cosine respectively, the used
sequence misses cosine (which is in the union) and changes when the
candidates are permuted. -/
theorem C1_counterexample :
    allAlgorithms
        [({ rank := some 1, filename := "a.pdf", scores := some [("bert", 0)],
            finalScore := none, extractedSkills := none } : Detail),
          { rank := some 2, filename := "b.pdf", scores := some [("cosine", 0)],
            finalScore := none, extractedSkills := none }] ≠
      allAlgorithms
        [({ rank := some 2, filename := "b.pdf", scores := some [("cosine", 0)],
            finalScore := none, extractedSkills := none } : Detail),
          { rank := some 1, filename := "a.pdf", scores := some [("bert", 0)],
            finalScore := none, extractedSkills := none }] ∧
    "cosine" ∈ detailsUnionKeys
        [({ rank := some 1, filename := "a.pdf", scores := some [("bert", 0)],
            finalScore := none, extractedSkills := none } : Detail),
          { rank := some 2, filename := "b.pdf", scores := some [("cosine", 0)],
            finalScore := none, extractedSkills := none }] ∧
    "cosine" ∉ allAlgorithms
        [({ rank := some 1, filename := "a.pdf", scores := some [("bert", 0)],
            finalScore := none, extractedSkills := none } : Detail),
          { rank := some 2, filename := "b.pdf", scores := some [("cosine", 0)],
            finalScore := none, extractedSkills := none }] := by
  refine ⟨?_, ?_, ?_⟩ <;> decide

/-! ## The details rank sort -/

instance : IsTotal Detail detailLe := ⟨fun a b => Nat.le_total (jsRank a) (jsRank b)⟩

instance : IsTrans Detail detailLe := ⟨fun _ _ _ h1 h2 => Nat.le_trans h1 h2⟩

/-- C8: the details rank sort is idempotent — sorting its own output again
changes nothing — and, being a pure function of its input, deterministic. -/
theorem C8_rank_idempotent (ds : List Detail) :
    sortDetails (sortDetails ds) = sortDetails ds :=
  List.Sorted.insertionSort_eq (List.sorted_insertionSort detailLe ds)

/-- C6: when every record carries an explicit `rank`, the details sort
returns a permutation of the input ordered ascending by that field
(original input order not consulted beyond tie-breaking). -/
theorem C6_sort_by_explicit_rank (ds : List Detail)
    (h : ∀ d ∈ ds, d.rank.isSome = true) :
    (sortDetails ds).Perm ds ∧
    List.Pairwise (fun a b : Detail => a.rank.getD 0 ≤ b.rank.getD 0) (sortDetails ds) ∧
    (∀ d ∈ sortDetails ds, d.rank.isSome = true) := by
  refine ⟨List.perm_insertionSort detailLe ds, ?_, ?_⟩
  · exact List.sorted_insertionSort detailLe ds
  · intro d hd
    exact h d ((List.mem_insertionSort detailLe).mp hd)

/-- Witness for C6: three records with explicit ranks 2, 1, 3 given out of
order. -/
theorem C6_sort_by_explicit_rank_witness :
    (∀ d ∈ [({ rank := some 2, filename := "x.pdf", scores := none,
                finalScore := none, extractedSkills := none } : Detail),
              { rank := some 1, filename := "y.pdf", scores := none,
                finalScore := none, extractedSkills := none },
              { rank := some 3, filename := "z.pdf", scores := none,
                finalScore := none, extractedSkills := none }],
        d.rank.isSome = true) ∧
    ((sortDetails
          [({ rank := some 2, filename := "x.pdf", scores := none,
              finalScore := none, extractedSkills := none } : Detail),
            { rank := some 1, filename := "y.pdf", scores := none,
              finalScore := none, extractedSkills := none },
            { rank := some 3, filename := "z.pdf", scores := none,
              finalScore := none, extractedSkills := none }]).Perm
        [({ rank := some 2, filename := "x.pdf", scores := none,
            finalScore := none, extractedSkills := none } : Detail),
          { rank := some 1, filename := "y.pdf", scores := none,
            finalScore := none, extractedSkills := none },
          { rank := some 3, filename := "z.pdf", scores := none,
            finalScore := none, extractedSkills := none }] ∧
      List.Pairwise (fun a b : Detail => a.rank.getD 0 ≤ b.rank.getD 0)
        (sortDetails
          [({ rank := some 2, filename := "x.pdf", scores := none,
              finalScore := none, extractedSkills := none } : Detail),
            { rank := some 1, filename := "y.pdf", scores := none,
              finalScore := none, extractedSkills := none },
            { rank := some 3, filename := "z.pdf", scores := none,
              finalScore := none, extractedSkills := none }]) ∧
      (∀ d ∈ sortDetails
            [({ rank := some 2, filename := "x.pdf", scores := none,
                finalScore := none, extractedSkills := none } : Detail),
              { rank := some 1, filename := "y.pdf", scores := none,
                finalScore := none, extractedSkills := none },
              { rank := some 3, filename := "z.pdf", scores := none,
                finalScore := none, extractedSkills := none }],
          d.rank.isSome = true)) :=
  ⟨by decide, C6_sort_by_explicit_rank _ (by decide)⟩

/-- C10: records without a `rank` (or with rank 0) carry sort key 0 under
`(a.rank || 0) - (b.rank || 0)`, hence come before every ranked record in
the details ordering; in particular the head of the sorted list is such a
record. -/
theorem C10_unranked_sort_first (ds : List Detail)
    (h0 : ∃ x ∈ ds, jsRank x = 0) (h1 : ∃ y ∈ ds, 1 ≤ jsRank y) :
    List.Pairwise (fun a b : Detail => jsRank b = 0 → jsRank a = 0) (sortDetails ds) ∧
    (∃ d, (sortDetails ds).head? = some d ∧ jsRank d = 0) ∧
    (∃ e ∈ sortDetails ds, 1 ≤ jsRank e) := by
  have hs : List.Pairwise detailLe (sortDetails ds) :=
    List.sorted_insertionSort detailLe ds
  refine ⟨?_, ?_, ?_⟩
  · exact hs.imp (fun {a b} hab hb => by unfold detailLe jsRank at *; omega)
  · rcases h0 with ⟨x, hx, hx0⟩
    have hxmem : x ∈ sortDetails ds := (List.mem_insertionSort detailLe).mpr hx
    cases hsd : sortDetails ds with
    | nil => rw [hsd] at hxmem; simp at hxmem
    | cons d t =>
      rw [hsd] at hxmem hs
      refine ⟨d, rfl, ?_⟩
      rcases List.mem_cons.mp hxmem with rfl | hxt
      · exact hx0
      · have hdx := (List.rel_of_sorted_cons hs) x hxt
        unfold detailLe at hdx
        omega
  · rcases h1 with ⟨y, hy, hy1⟩
    exact ⟨y, (List.mem_insertionSort detailLe).mpr hy, hy1⟩

/-- Witness for C10: one unranked and one ranked record. -/
theorem C10_unranked_sort_first_witness :
    (∃ x ∈ [({ rank := some 4, filename := "r.pdf", scores := none,
                finalScore := none, extractedSkills := none } : Detail),
              { rank := none, filename := "u.pdf", scores := none,
                finalScore := none, extractedSkills := none }], jsRank x = 0) ∧
    (∃ y ∈ [({ rank := some 4, filename := "r.pdf", scores := none,
                finalScore := none, extractedSkills := none } : Detail),
              { rank := none, filename := "u.pdf", scores := none,
                finalScore := none, extractedSkills := none }], 1 ≤ jsRank y) ∧
    (List.Pairwise (fun a b : Detail => jsRank b = 0 → jsRank a = 0)
        (sortDetails
          [({ rank := some 4, filename := "r.pdf", scores := none,
              finalScore := none, extractedSkills := none } : Detail),
            { rank := none, filename := "u.pdf", scores := none,
              finalScore := none, extractedSkills := none }]) ∧
      (∃ d, (sortDetails
            [({ rank := some 4, filename := "r.pdf", scores := none,
                finalScore := none, extractedSkills := none } : Detail),
              { rank := none, filename := "u.pdf", scores := none,
                finalScore := none, extractedSkills := none }]).head? = some d ∧
          jsRank d = 0) ∧
      (∃ e ∈ sortDetails
            [({ rank := some 4, filename := "r.pdf", scores := none,
                finalScore := none, extractedSkills := none } : Detail),
              { rank := none, filename := "u.pdf", scores := none,
                finalScore := none, extractedSkills := none }], 1 ≤ jsRank e)) :=
  ⟨by decide, by decide, C10_unranked_sort_first _ (by decide) (by decide)⟩

/-! ## CSV serialization and the standard reader: round trip -/

theorem serializeRecord_singleton (f : List Char) :
    serializeRecord [f] = '"' :: (f ++ ['"']) := rfl

theorem serializeRecord_cons (a : List Char) (l : List (List Char)) (h : l ≠ []) :
    serializeRecord (a :: l) = quoteField a ++ ',' :: serializeRecord l := by
  cases l with
  | nil => exact absurd rfl h
  | cons b l => rfl

theorem serializeTable_singleton (r : List (List Char)) :
    serializeTable [r] = serializeRecord r := rfl

theorem serializeTable_cons (r : List (List Char)) (l : List (List (List Char)))
    (h : l ≠ []) :
    serializeTable (r :: l) = serializeRecord r ++ '\n' :: serializeTable l := by
  cases l with
  | nil => exact absurd rfl h
  | cons r2 l => rfl

theorem csvRun_start_quote (cs cur : List Char) (rec : List (List Char))
    (rows : List (List (List Char))) :
    csvRun ('"' :: cs) cur rec rows .startField = csvRun cs [] rec rows .inQuotes := by
  simp [csvRun]

theorem csvRun_inQuotes_quote (cs cur : List Char) (rec : List (List Char))
    (rows : List (List (List Char))) :
    csvRun ('"' :: cs) cur rec rows .inQuotes = csvRun cs cur rec rows .afterQuote := by
  simp [csvRun]

theorem csvRun_inQuotes_other {c : Char} (hc : c ≠ '"') (cs cur : List Char)
    (rec : List (List Char)) (rows : List (List (List Char))) :
    csvRun (c :: cs) cur rec rows .inQuotes =
      csvRun cs (cur ++ [c]) rec rows .inQuotes := by
  simp [csvRun, hc]

theorem csvRun_after_comma (cs cur : List Char) (rec : List (List Char))
    (rows : List (List (List Char))) :
    csvRun (',' :: cs) cur rec rows .afterQuote =
      csvRun cs [] (rec ++ [cur]) rows .startField := by
  simp [csvRun]

theorem csvRun_after_newline (cs cur : List Char) (rec : List (List Char))
    (rows : List (List (List Char))) :
    csvRun ('\n' :: cs) cur rec rows .afterQuote =
      csvRun cs [] [] (rows ++ [rec ++ [cur]]) .startField := by
  simp [csvRun]

theorem csvRun_field : ∀ (f : List Char), '"' ∉ f →
    ∀ (rest cur : List Char) (rec : List (List Char)) (rows : List (List (List Char))),
      csvRun (f ++ '"' :: rest) cur rec rows .inQuotes =
        csvRun rest (cur ++ f) rec rows .afterQuote := by
  intro f
  induction f with
  | nil =>
    intro _ rest cur rec rows
    rw [List.nil_append, List.append_nil, csvRun_inQuotes_quote]
  | cons c f ih =>
    intro hf rest cur rec rows
    have hc : c ≠ '"' := fun h => hf (h ▸ List.mem_cons_self c f)
    have hf' : '"' ∉ f := fun h => hf (List.mem_cons_of_mem c h)
    rw [List.cons_append, csvRun_inQuotes_other hc, ih hf',
      List.append_assoc, List.singleton_append]

theorem csvRun_record : ∀ (pre : List (List Char)) (f : List Char),
    (∀ g ∈ pre, '"' ∉ g) → '"' ∉ f →
    ∀ (rest : List Char) (rec : List (List Char)) (rows : List (List (List Char))),
      csvRun (serializeRecord (pre ++ [f]) ++ rest) [] rec rows .startField =
        csvRun rest f (rec ++ pre) rows .afterQuote := by
  intro pre
  induction pre with
  | nil =>
    intro f _ hf rest rec rows
    rw [List.nil_append, serializeRecord_singleton, List.cons_append,
      csvRun_start_quote, List.append_assoc, List.singleton_append,
      csvRun_field f hf, List.nil_append, List.append_nil]
  | cons g pre ih =>
    intro f hpre hf rest rec rows
    have hg : '"' ∉ g := hpre g (List.mem_cons_self g pre)
    have hpre' : ∀ x ∈ pre, '"' ∉ x := fun x hx => hpre x (List.mem_cons_of_mem g hx)
    rw [List.cons_append, serializeRecord_cons g (pre ++ [f]) (by simp),
      List.append_assoc, List.cons_append]
    show csvRun (quoteField g ++ (',' :: (serializeRecord (pre ++ [f]) ++ rest)))
        [] rec rows .startField = _
    rw [show quoteField g ++ (',' :: (serializeRecord (pre ++ [f]) ++ rest))
        = '"' :: (g ++ ('"' :: (',' :: (serializeRecord (pre ++ [f]) ++ rest)))) by
      simp [quoteField]]
    rw [csvRun_start_quote, csvRun_field g hg, List.nil_append,
      csvRun_after_comma, ih f hpre' hf rest (rec ++ [g]) rows,
      List.append_assoc, List.singleton_append]

theorem csvRun_table : ∀ (rs : List (List (List Char))),
    (∀ r ∈ rs, r ≠ []) → (∀ r ∈ rs, ∀ g ∈ r, '"' ∉ g) → rs ≠ [] →
    ∀ rows : List (List (List Char)),
      csvRun (serializeTable rs) [] [] rows .startField = some (rows ++ rs) := by
  intro rs
  induction rs with
  | nil => intro _ _ h; exact absurd rfl h
  | cons r rs ih =>
    intro hne hq _ rows
    rcases List.eq_nil_or_concat r with rfl | ⟨pre, f, rfl⟩
    · exact absurd rfl (hne [] (List.mem_cons_self _ _))
    rw [List.concat_eq_append] at *
    have hqr : ∀ g ∈ pre ++ [f], '"' ∉ g := hq _ (List.mem_cons_self _ _)
    have hqpre : ∀ g ∈ pre, '"' ∉ g := fun g hg => hqr g (List.mem_append_left _ hg)
    have hqf : '"' ∉ f := hqr f (List.mem_append_right _ (List.mem_cons_self _ _))
    cases rs with
    | nil =>
      rw [serializeTable_singleton, ← List.append_nil (serializeRecord (pre ++ [f])),
        csvRun_record pre f hqpre hqf [] [] rows]
      show some (rows ++ [([] ++ pre) ++ [f]]) = _
      rw [List.nil_append]
    | cons r2 rs2 =>
      rw [serializeTable_cons _ _ (by simp),
        csvRun_record pre f hqpre hqf _ [] rows, List.nil_append,
        csvRun_after_newline,
        ih (fun x hx => hne x (List.mem_cons_of_mem _ hx))
          (fun x hx => hq x (List.mem_cons_of_mem _ hx)) (by simp)
          (rows ++ [pre ++ [f]])]
      simp

theorem map_mk_data (r : List String) :
    (r.map String.data).map (fun f => (⟨f⟩ : String)) = r := by
  rw [List.map_map]
  exact List.map_id'' (fun s => rfl) r

theorem parse_csvOfRows (rows : List (List String))
    (h1 : rows ≠ []) (h2 : ∀ r ∈ rows, r ≠ [])
    (h3 : ∀ r ∈ rows, ∀ s ∈ r, '"' ∉ s.data) :
    parseCSV (csvOfRows rows) = some rows := by
  show (csvRun (serializeTable (rows.map (fun row => row.map String.data)))
      [] [] [] .startField).map _ = some rows
  rw [csvRun_table (rows.map (fun row => row.map String.data))
    (by
      intro r hr
      rcases List.mem_map.mp hr with ⟨row, hrow, rfl⟩
      simpa using h2 row hrow)
    (by
      intro r hr g hg
      rcases List.mem_map.mp hr with ⟨row, hrow, rfl⟩
      rcases List.mem_map.mp hg with ⟨s, hs, rfl⟩
      exact h3 row hrow s hs)
    (by simpa using h1) []]
  rw [List.nil_append, Option.map_some']
  congr 1
  rw [List.map_map]
  exact List.map_id'' (fun row => map_mk_data row) rows

/-! ## Shape of the live view's CSV table -/

theorem headerRow_length (algs : List String) :
    (headerRow algs).length = 2 + algs.length + 2 := by
  simp [headerRow]
  omega

theorem dataRow_length (algs : List String) (r : CandidateResult) :
    (dataRow algs r).length = 2 + algs.length + 2 := by
  simp [dataRow]
  omega

theorem csvRows_length (results : List CandidateResult) :
    (csvRows results).length = results.length + 1 := by
  simp [csvRows]

theorem csvRows_ne_nil (results : List CandidateResult) : csvRows results ≠ [] := by
  simp [csvRows]

theorem csvRows_mem_ne_nil (results : List CandidateResult) :
    ∀ row ∈ csvRows results, row ≠ [] := by
  intro row hrow
  rcases List.mem_cons.mp hrow with rfl | hrow
  · simp [headerRow]
  · rcases List.mem_map.mp hrow with ⟨r, _, rfl⟩
    simp [dataRow]

theorem csvRows_mem_length (results : List CandidateResult) :
    ∀ row ∈ csvRows results, row.length = 2 + (getAlgorithms results).length + 2 := by
  intro row hrow
  rcases List.mem_cons.mp hrow with rfl | hrow
  · exact headerRow_length _
  · rcases List.mem_map.mp hrow with ⟨r, _, rfl⟩
    exact dataRow_length _ r

/-- C3 (amended): every CSV field is wrapped in double quotes, but internal
double quotes are NOT escaped by doubling; consequently the round trip with
a standard CSV reader holds exactly when no rendered cell contains a double
quote — fields with embedded commas (or newlines) still parse back to the
identical strings and re-serialization is byte-identical, while a field
with a double quote breaks parsing (see the counterexample). -/
theorem C3_csv_quoting_roundtrip (results : List CandidateResult)
    (hq : ∀ row ∈ csvRows results, ∀ cell ∈ row, '"' ∉ cell.data) :
    parseCSV (csvContent results) = some (csvRows results) ∧
    ∀ rows, parseCSV (csvContent results) = some rows →
      csvOfRows rows = csvContent results := by
  have h := parse_csvOfRows (csvRows results) (csvRows_ne_nil results)
    (csvRows_mem_ne_nil results) hq
  refine ⟨h, fun rows hr => ?_⟩
  have hr' : some (csvRows results) = some rows := by
    rw [← h]; exact hr
  cases hr'
  rfl

/-- Witness for C3: a concrete ResultSet whose filename contains a comma
(but no double quote) round-trips. -/
theorem C3_csv_quoting_roundtrip_witness :
    (∀ row ∈ csvRows
        [({ rank := some 1, filename := "Doe, John.pdf", scores := none,
            final_score := none, extracted_skills := none } : CandidateResult)],
      ∀ cell ∈ row, '"' ∉ cell.data) ∧
    parseCSV (csvContent
        [({ rank := some 1, filename := "Doe, John.pdf", scores := none,
            final_score := none, extracted_skills := none } : CandidateResult)]) =
      some (csvRows
        [({ rank := some 1, filename := "Doe, John.pdf", scores := none,
            final_score := none, extracted_skills := none } : CandidateResult)]) :=
  ⟨by decide,
    (C3_csv_quoting_roundtrip _ (by decide)).1⟩

/-- Counterexample for C3 as stated: with the filename
`O'Brien, "Resume".pdf` the export writes the field without doubling its
quote, and the standard reader rejects the text (so nothing parses back,
let alone the identical string). -/
theorem C3_counterexample :
    parseCSV (csvContent
        [({ rank := some 1, filename := "O'Brien, \"Resume\".pdf", scores := none,
            final_score := none, extracted_skills := none } : CandidateResult)]) =
      none ∧
    "O'Brien, \"Resume\".pdf" ∈
      (csvRows
        [({ rank := some 1, filename := "O'Brien, \"Resume\".pdf", scores := none,
            final_score := none, extracted_skills := none } : CandidateResult)]).flatten := by
  refine ⟨?_, ?_⟩ <;> decide

/-- C5 (amended): for the live view's `exportToCSV`, provided no rendered
cell contains a double quote, the parsed CSV has exactly `len(results) + 1`
rows, every row has `2 + |algorithmUniverse| + 2` columns, and the first
row is the header `Rank, Filename, <ALG (%) columns uppercased in
getAlgorithms order>, Final Score (%), Skills Count`. (As stated over every
ResultSet and both exports the claim fails: the historical details export
has no Skills Count column and takes its algorithm columns from the first
record only — see the counterexample.) -/
theorem C5_csv_shape (results : List CandidateResult)
    (hq : ∀ row ∈ csvRows results, ∀ cell ∈ row, '"' ∉ cell.data) :
    parseCSV (csvContent results) = some (csvRows results) ∧
    (csvRows results).length = results.length + 1 ∧
    (∀ row ∈ csvRows results, row.length = 2 + (getAlgorithms results).length + 2) ∧
    (csvRows results).head? = some (headerRow (getAlgorithms results)) :=
  ⟨parse_csvOfRows (csvRows results) (csvRows_ne_nil results)
      (csvRows_mem_ne_nil results) hq,
    csvRows_length results, csvRows_mem_length results, rfl⟩

/-- Witness for C5: the no-double-quote hypothesis discharged at a concrete
one-candidate ResultSet. -/
theorem C5_csv_shape_witness :
    (∀ row ∈ csvRows
        [({ rank := some 1, filename := "cv.pdf", scores := none,
            final_score := none, extracted_skills := some ["go"] } : CandidateResult)],
      ∀ cell ∈ row, '"' ∉ cell.data) ∧
    (parseCSV (csvContent
        [({ rank := some 1, filename := "cv.pdf", scores := none,
            final_score := none, extracted_skills := some ["go"] } : CandidateResult)]) =
      some (csvRows
        [({ rank := some 1, filename := "cv.pdf", scores := none,
            final_score := none, extracted_skills := some ["go"] } : CandidateResult)]) ∧
    (csvRows
        [({ rank := some 1, filename := "cv.pdf", scores := none,
            final_score := none, extracted_skills := some ["go"] } : CandidateResult)]).length =
      1 + 1 ∧
    (∀ row ∈ csvRows
        [({ rank := some 1, filename := "cv.pdf", scores := none,
            final_score := none, extracted_skills := some ["go"] } : CandidateResult)],
      row.length = 2 + (getAlgorithms
        [({ rank := some 1, filename := "cv.pdf", scores := none,
            final_score := none, extracted_skills := some ["go"] } : CandidateResult)]).length + 2) ∧
    (csvRows
        [({ rank := some 1, filename := "cv.pdf", scores := none,
            final_score := none, extracted_skills := some ["go"] } : CandidateResult)]).head? =
      some (headerRow (getAlgorithms
        [({ rank := some 1, filename := "cv.pdf", scores := none,
            final_score := none, extracted_skills := some ["go"] } : CandidateResult)]))) :=
  ⟨by decide, C5_csv_shape _ (by decide)⟩

/-- Counterexample for C5 as stated: in the historical details export, with
a first record scoring only bert and a second scoring bert and cosine, the
algorithm universe has 2 elements, so the claim requires 6 columns; the
export produces rows of 4 cells (first record's single key, and no Skills
Count header), and the parsed CSV exhibits them. -/
theorem C5_counterexample :
    (detailsUnionKeys
        [({ rank := some 1, filename := "a.pdf", scores := some [("bert", 0)],
            finalScore := none, extractedSkills := none } : Detail),
          { rank := some 2, filename := "b.pdf",
            scores := some [("bert", 0), ("cosine", 0)],
            finalScore := none, extractedSkills := none }]).length = 2 ∧
    (∃ row ∈ (parseCSV (csvOfRows (detailsCsvRows
        [({ rank := some 1, filename := "a.pdf", scores := some [("bert", 0)],
            finalScore := none, extractedSkills := none } : Detail),
          { rank := some 2, filename := "b.pdf",
            scores := some [("bert", 0), ("cosine", 0)],
            finalScore := none, extractedSkills := none }]))).getD [],
      row.length ≠ 2 + 2 + 2) ∧
    "Skills Count" ∉ ((detailsCsvRows
        [({ rank := some 1, filename := "a.pdf", scores := some [("bert", 0)],
            finalScore := none, extractedSkills := none } : Detail),
          { rank := some 2, filename := "b.pdf",
            scores := some [("bert", 0), ("cosine", 0)],
            finalScore := none, extractedSkills := none }]).head?.getD []) := by
  refine ⟨?_, ?_, ?_⟩ <;> decide

/-! ## Rendering of present-zero scores (live view) -/

/-- C2 (amended): in the live view's table and CSV export a present score
equal to 0 is rendered as the token `N/A`, exactly like an absent score
(the code tests JS truthiness, and 0 is falsy); only a present nonzero
score renders as `score*100` to one decimal place, and likewise for
`final_score`. -/
theorem C2_zero_score_renders_na (r : CandidateResult) (alg : String) :
    (lookupScore r alg = some 0 → scoreCell r alg = "N/A") ∧
    (lookupScore r alg = none → scoreCell r alg = "N/A") ∧
    (∀ q, lookupScore r alg = some q → q ≠ 0 →
      scoreCell r alg = jsToFixed1 (q * 100)) ∧
    (r.final_score = some 0 → finalCell r = "N/A") ∧
    (r.final_score = none → finalCell r = "N/A") ∧
    (∀ q, r.final_score = some q → q ≠ 0 → finalCell r = jsToFixed1 (q * 100)) := by
  refine ⟨?_, ?_, ?_, ?_, ?_, ?_⟩
  · intro h; unfold scoreCell; rw [h]; simp
  · intro h; unfold scoreCell; rw [h]
  · intro q h hq; unfold scoreCell; rw [h]; simp [hq]
  · intro h; unfold finalCell; rw [h]; simp
  · intro h; unfold finalCell; rw [h]
  · intro q h hq; unfold finalCell; rw [h]; simp [hq]

/-- Witness for C2 (amended): a candidate with a present bert score of 0. -/
theorem C2_zero_score_renders_na_witness :
    lookupScore
        ({ rank := some 1, filename := "a.pdf", scores := some [("bert", 0)],
            final_score := none, extracted_skills := none } : CandidateResult) "bert" =
      some 0 ∧
    scoreCell
        ({ rank := some 1, filename := "a.pdf", scores := some [("bert", 0)],
            final_score := none, extracted_skills := none } : CandidateResult) "bert" =
      "N/A" :=
  ⟨by decide,
    (C2_zero_score_renders_na _ "bert").1 (by decide)⟩

/-- Counterexample for C2 as stated: the candidate scores 0 on bert (the
score is present), yet the rendered cell is `N/A`, not `0.0` — a present
zero IS conflated with a missing score. -/
theorem C2_counterexample :
    lookupScore
        ({ rank := some 1, filename := "a.pdf", scores := some [("bert", 0)],
            final_score := none, extracted_skills := none } : CandidateResult) "bert" =
      some 0 ∧
    scoreCell
        ({ rank := some 1, filename := "a.pdf", scores := some [("bert", 0)],
            final_score := none, extracted_skills := none } : CandidateResult) "bert" =
      "N/A" ∧
    scoreCell
        ({ rank := some 1, filename := "a.pdf", scores := some [("bert", 0)],
            final_score := none, extracted_skills := none } : CandidateResult) "bert" ≠
      "0.0" := by
  refine ⟨?_, ?_, ?_⟩ <;> decide

/-! ## The displayed average (live view) -/

theorem append_percent_ne_na (s : String) : s ++ "%" ≠ "N/A" := by
  intro h
  have hd : (s ++ "%").data = "N/A".data := by rw [h]
  rw [String.data_append] at hd
  have h1 : ((s.data ++ "%".data).getLast?) = some '%' := List.getLast?_concat _
  rw [hd] at h1
  exact absurd h1 (by decide)

theorem foldl_final_score_eq (l : List CandidateResult) :
    ∀ init : ℚ, (∀ r ∈ l, r.final_score.isSome = true) →
      l.foldl (fun acc r => acc + r.final_score.getD 0) init =
        init + (l.filterMap CandidateResult.final_score).sum := by
  induction l with
  | nil => intro init _; simp
  | cons r l ih =>
    intro init h
    rcases Option.isSome_iff_exists.mp (h r (List.mem_cons_self r l)) with ⟨q, hq⟩
    rw [List.foldl_cons, ih (init + r.final_score.getD 0)
      (fun x hx => h x (List.mem_cons_of_mem r hx)), List.filterMap_cons, hq]
    simp [List.sum_cons]
    ring

theorem filterMap_final_score_length (l : List CandidateResult)
    (h : ∀ r ∈ l, r.final_score.isSome = true) :
    (l.filterMap CandidateResult.final_score).length = l.length := by
  induction l with
  | nil => rfl
  | cons r l ih =>
    rcases Option.isSome_iff_exists.mp (h r (List.mem_cons_self r l)) with ⟨q, hq⟩
    rw [List.filterMap_cons, hq]
    simp [ih (fun x hx => h x (List.mem_cons_of_mem r hx))]

/-- C4 (amended): the displayed average is the mean of `final_score || 0`
over ALL candidates — it agrees with the spec's mean (over candidates that
have a `final_score`) exactly when every candidate has one — and the `N/A`
marker appears if and only if the candidate list is empty (not when scores
are merely all absent). -/
theorem C4_average (results : List CandidateResult) :
    ((∀ r ∈ results, r.final_score.isSome = true) → results ≠ [] →
      specMeanFinalScore results = some (avgValue results)) ∧
    (avgDisplay results = "N/A" ↔ results = []) := by
  constructor
  · intro hall hne
    have hlen := filterMap_final_score_length results hall
    have hsum := foldl_final_score_eq results 0 hall
    simp only [specMeanFinalScore]
    rw [if_neg (by rw [hlen]; exact fun hl => hne (List.length_eq_zero.mp hl))]
    simp only [avgValue]
    rw [hsum, zero_add, hlen]
  · constructor
    · intro h
      by_contra hne
      have hlen : results.length > 0 := List.length_pos.mpr hne
      rw [avgDisplay, if_pos hlen] at h
      exact append_percent_ne_na _ h
    · intro h
      subst h
      rfl

/-- Witness for C4: two candidates both carrying a `final_score`. -/
theorem C4_average_witness :
    (∀ r ∈ [({ rank := some 1, filename := "a.pdf", scores := none,
               final_score := some 1, extracted_skills := none } : CandidateResult),
             { rank := some 2, filename := "b.pdf", scores := none,
               final_score := some 0, extracted_skills := none }],
      r.final_score.isSome = true) ∧
    ([({ rank := some 1, filename := "a.pdf", scores := none,
         final_score := some 1, extracted_skills := none } : CandidateResult),
       { rank := some 2, filename := "b.pdf", scores := none,
         final_score := some 0, extracted_skills := none }] ≠ []) ∧
    specMeanFinalScore
        [({ rank := some 1, filename := "a.pdf", scores := none,
            final_score := some 1, extracted_skills := none } : CandidateResult),
          { rank := some 2, filename := "b.pdf", scores := none,
            final_score := some 0, extracted_skills := none }] =
      some (avgValue
        [({ rank := some 1, filename := "a.pdf", scores := none,
            final_score := some 1, extracted_skills := none } : CandidateResult),
          { rank := some 2, filename := "b.pdf", scores := none,
            final_score := some 0, extracted_skills := none }]) :=
  ⟨by decide, by decide,
    (C4_average _).1 (by decide) (by decide)⟩

/-- Counterexample for C4 as stated: with one candidate scoring 1 and one
lacking a `final_score`, the spec mean is 1 but the display computes 1/2
(the scoreless candidate is counted in the denominator as 0); and with a
single scoreless candidate the display is a percentage (`0.0%`), not the
`N/A` marker, although no candidate has a `final_score`. -/
theorem C4_counterexample :
    specMeanFinalScore
        [({ rank := some 1, filename := "a.pdf", scores := none,
            final_score := some 1, extracted_skills := none } : CandidateResult),
          { rank := some 2, filename := "b.pdf", scores := none,
            final_score := none, extracted_skills := none }] = some 1 ∧
    avgValue
        [({ rank := some 1, filename := "a.pdf", scores := none,
            final_score := some 1, extracted_skills := none } : CandidateResult),
          { rank := some 2, filename := "b.pdf", scores := none,
            final_score := none, extracted_skills := none }] = 1 / 2 ∧
    (1 : ℚ) ≠ 1 / 2 ∧
    avgDisplay
        [({ rank := some 2, filename := "b.pdf", scores := none,
            final_score := none, extracted_skills := none } : CandidateResult)] ≠
      "N/A" ∧
    specMeanFinalScore
        [({ rank := some 2, filename := "b.pdf", scores := none,
            final_score := none, extracted_skills := none } : CandidateResult)] =
      none := by
  refine ⟨?_, ?_, ?_, ?_, ?_⟩
  · simp [specMeanFinalScore, List.filterMap_cons]
  · simp [avgValue]
  · norm_num
  · rw [avgDisplay, if_pos (by simp)]
    exact append_percent_ne_na _
  · simp [specMeanFinalScore, List.filterMap_cons]

/-! ## Failure semantics of the display component -/

/-- C7 (amended): the component never raises for missing optional fields —
every well-formed ResultSet renders fully, one row per candidate — but an
input whose `results.results` is absent is rejected SILENTLY (`return
null`), with no error reported to the caller; only a truthy non-sequence
`results` raises (a TypeError on iteration). The claimed "reports an error
iff not well-formed" does not hold (see the counterexample). -/
theorem C7_failure_semantics (rs : List CandidateResult) :
    runDisplay (ResultsProp.wellFormed rs) = RenderOutcome.view (tableRows rs) ∧
    ¬ reportsError (runDisplay (ResultsProp.wellFormed rs)) ∧
    (tableRows rs).length = rs.length ∧
    runDisplay ResultsProp.missing = RenderOutcome.nullRender ∧
    runDisplay ResultsProp.noResults = RenderOutcome.nullRender ∧
    ¬ reportsError (runDisplay ResultsProp.noResults) ∧
    reportsError (runDisplay ResultsProp.nonSeq) := by
  refine ⟨rfl, fun h => h, by simp [tableRows], rfl, rfl, fun h => h, trivial⟩

/-- Counterexample for C7 as stated: an object without a usable `results`
field is not a well-formed ResultSet, yet the component reports no error —
it silently renders nothing. -/
theorem C7_counterexample :
    ¬ (reportsError (runDisplay ResultsProp.noResults) ↔
        ¬ wellFormedInput ResultsProp.noResults) := by
  intro h
  exact h.mpr not_false

/-! ## Transport-error messages of the API client -/

/-- C9: the user-facing message of a failed submission is determined by the
transport error: status 413 gives the file-too-large message, 422 the
invalid-format message, any status at least 500 the generic server-error
message (each surfaced through the catch block's `Processing failed: `
prefix, regardless of any backend-supplied error body), and a timeout
(no response, code ECONNABORTED) the processing-timeout message. The whole
path is a pure function of the error — nothing is retried. -/
theorem C9_error_messages (e : AxiosError) :
    (statusOf e = some 413 → userMessage e =
      "Processing failed: File size too large. Please reduce file sizes or number of files.") ∧
    (statusOf e = some 422 → userMessage e =
      "Processing failed: Invalid file format. Please upload PDF or DOCX files only.") ∧
    (∀ s, statusOf e = some s → 500 ≤ s → userMessage e =
      "Processing failed: Server error. Please try again later.") ∧
    (e.response = none → e.code = some "ECONNABORTED" → userMessage e =
      "Processing timeout. Please try with fewer files or simpler algorithms.") := by
  refine ⟨?_, ?_, ?_, ?_⟩
  · intro h
    simp [userMessage, responseInterceptor, processResumesCatch, plainError, h]
  · intro h
    simp [userMessage, responseInterceptor, processResumesCatch, plainError, h]
  · intro s h hs
    have h413 : s ≠ 413 := by omega
    have h422 : s ≠ 422 := by omega
    have hsrv : isServerError e = true := by simp [isServerError, h]; omega
    simp [userMessage, responseInterceptor, processResumesCatch, plainError, h,
      h413, h422, hsrv]
  · intro hresp hcode
    have hst : statusOf e = none := by simp [statusOf, hresp]
    simp [userMessage, responseInterceptor, processResumesCatch, plainError,
      isServerError, hst, hresp, hcode]

/-- Witness for C9: the four transport errors instantiated concretely (the
500-case response carries a backend error body, which the interceptor's
fresh Error discards). -/
theorem C9_error_messages_witness :
    (statusOf { response := some { status := 413, dataError := none },
                code := none, message := "Request failed with status code 413" } = some 413 ∧
      userMessage { response := some { status := 413, dataError := none },
                    code := none, message := "Request failed with status code 413" } =
        "Processing failed: File size too large. Please reduce file sizes or number of files.") ∧
    (statusOf { response := some { status := 422, dataError := none },
                code := none, message := "Request failed with status code 422" } = some 422 ∧
      userMessage { response := some { status := 422, dataError := none },
                    code := none, message := "Request failed with status code 422" } =
        "Processing failed: Invalid file format. Please upload PDF or DOCX files only.") ∧
    (statusOf { response := some { status := 503, dataError := some "boom" },
                code := none, message := "Request failed with status code 503" } = some 503 ∧
      userMessage { response := some { status := 503, dataError := some "boom" },
                    code := none, message := "Request failed with status code 503" } =
        "Processing failed: Server error. Please try again later.") ∧
    (userMessage { response := none, code := some "ECONNABORTED",
                   message := "timeout of 300000ms exceeded" } =
      "Processing timeout. Please try with fewer files or simpler algorithms.") :=
  ⟨⟨by decide, (C9_error_messages _).1 (by decide)⟩,
    ⟨by decide, (C9_error_messages _).2.1 (by decide)⟩,
    ⟨by decide, (C9_error_messages _).2.2.1 503 (by decide) (by decide)⟩,
    (C9_error_messages _).2.2.2 rfl rfl⟩
